import Mathlib

/-!
Shallow embedding of the clear-ping probe core: the probe scheduler
(src/lib/scheduler.ts), the echo probe executor (the enhanced system-ping
retry loop of src/lib/ping.ts), the DNS probe executor (src/lib/dns.ts) and
the statistics aggregator (calculateStats in the monitoring dashboard).
Network and process effects are abstracted by explicit oracles: a reply
oracle tells which echo packets are answered, a query oracle tells which DNS
queries resolve and how long they took.  Every loop is embedded as a pure
recursive function over the same state the source mutates.
-/

namespace ClearPing

/-- Probe types recognized by the scheduler (source: ProbeType, types/probe). -/
inductive ProbeType where
  | ping
  | dns
deriving DecidableEq, Repr

/-- Target status values (source: ProbeStatus, types/probe). -/
inductive ProbeStatus where
  | active
  | paused
  | error
deriving DecidableEq, Repr

/-- Rounding of num/den as JS Math.round computes it for a nonnegative
rational argument: floor of the value plus one half, here in integer
arithmetic. -/
def jsRound (num den : Nat) : Nat := (2 * num + den) / (2 * den)

/-- Number of replies among the first n packets of one attempt, given the
per-packet reply oracle (source: executeIndividualPings, whose result list is
filtered by success in executeEnhancedSystemPing). -/
def countReplies (reply : Nat → Bool) (n : Nat) : Nat :=
  (List.range n).countP reply

/-- Sum of the round-trip times of the replied packets among the first n
packets of one attempt (source: the latencySum reduction in
executeEnhancedSystemPing; packets without a reply contribute nothing). -/
def attemptLatency (reply : Nat → Bool) (lat : Nat → Nat) (n : Nat) : Nat :=
  (((List.range n).filter reply).map lat).sum

/-- Accumulated state of the retry loop of executeEnhancedSystemPing:
the per-attempt send counts and the three running totals the source keeps in
totalSent, totalReceived and totalLatency. -/
structure EchoRun where
  sends : List Nat
  totalSent : Nat
  totalReceived : Nat
  totalLatency : Nat
deriving DecidableEq, Repr

/-- Packets sent by one attempt of executeEnhancedSystemPing (ping library,
lines 194-197): packetsForAttempt = max(1, floor(count / (retries + 1)))
and remainingPackets = count - totalSent; the last attempt takes all
remaining packets and earlier attempts take
min(packetsForAttempt, remainingPackets). -/
def packetsToSend (count retries attempt totalSent : Nat) : Nat :=
  if attempt = retries then count - totalSent
  else min (max 1 (count / (retries + 1))) (count - totalSent)

/-- Retry loop of executeEnhancedSystemPing (ping library, lines 192-227),
embedded over the list of remaining attempt indices; the source iterates
attempt = 0 .. retries.  The loop breaks when nothing is left to send, and
breaks after any attempt that received at least one reply.  The oracle
reply a j says whether packet j of attempt a is answered, lat a j gives its
round-trip time; the escalating timeout (timeout multiplied by the backoff
factor after a failed attempt) only changes the conditions under which the
operating system reports a reply, which the oracles absorb, so it is not
tracked as loop state. -/
def pingAttemptLoop (count retries : Nat) (reply : Nat → Nat → Bool)
    (lat : Nat → Nat → Nat) :
    List Nat → List Nat → Nat → Nat → Nat → EchoRun
  | [], sends, totalSent, totalReceived, totalLatency =>
      ⟨sends.reverse, totalSent, totalReceived, totalLatency⟩
  | attempt :: rest, sends, totalSent, totalReceived, totalLatency =>
      let toSend := packetsToSend count retries attempt totalSent
      if toSend = 0 then ⟨sends.reverse, totalSent, totalReceived, totalLatency⟩
      else
        let receivedInAttempt := countReplies (reply attempt) toSend
        let latencySum := attemptLatency (reply attempt) (lat attempt) toSend
        if 0 < receivedInAttempt then
          ⟨(toSend :: sends).reverse, totalSent + toSend,
            totalReceived + receivedInAttempt, totalLatency + latencySum⟩
        else
          pingAttemptLoop count retries reply lat rest (toSend :: sends)
            (totalSent + toSend) (totalReceived + receivedInAttempt)
            (totalLatency + latencySum)

/-- Full run of the retry loop of executeEnhancedSystemPing for given count
and retries, starting from attempt 0 with empty totals. -/
def pingRun (count retries : Nat) (reply : Nat → Nat → Bool)
    (lat : Nat → Nat → Nat) : EchoRun :=
  pingAttemptLoop count retries reply lat (List.range (retries + 1)) [] 0 0 0

/-- Packet-loss percentage computed by executeEnhancedSystemPing:
Math.round(((totalSent - totalReceived) / totalSent) * 100) when anything was
sent, else 100. -/
def echoPacketLoss (r : EchoRun) : Nat :=
  if 0 < r.totalSent then jsRound (100 * (r.totalSent - r.totalReceived)) r.totalSent
  else 100

/-- Result record produced by one probe executor invocation (source:
ProbeResult, types/probe).  The DNS executor leaves packetLoss absent and the
echo executors leave jitter absent; absence is modeled by none. -/
structure ProbeResult where
  latency : Option ℚ
  packetLoss : Option ℚ
  jitter : Option ℤ
  success : Bool
deriving DecidableEq, Repr

/-- Echo probe via the enhanced system-ping path (source:
executeEnhancedSystemPing, final aggregation lines 229-240): average latency
is Math.round(totalLatency / totalReceived) over the replied packets or null
when none replied, packet loss as in echoPacketLoss, success when at least
one reply arrived, and no jitter field at all. -/
def executeSystemPingProbe (count retries : Nat) (reply : Nat → Nat → Bool)
    (lat : Nat → Nat → Nat) : ProbeResult :=
  let run := pingRun count retries reply lat
  { latency :=
      if 0 < run.totalReceived then some ((jsRound run.totalLatency run.totalReceived : Nat) : ℚ)
      else none
    packetLoss := some ((echoPacketLoss run : Nat) : ℚ)
    jitter := none
    success := 0 < run.totalReceived }

/-- Number of resolution attempts per DNS probe (source: queryCount in
executeDnsProbe, fixed at 5). -/
def dnsQueryCount : Nat := 5

/-- Elapsed times of the successful DNS queries, in order (source: the
latencies array of executeDnsProbe; the query oracle returns some elapsed
time for a query that resolves before its timeout and none for a query that
errors or times out, and failed queries push nothing).  The successCount
counter of the source is incremented exactly when a latency is pushed, so it
always equals the length of this list. -/
def dnsLatencies (query : Nat → Option ℚ) : List ℚ :=
  (List.range dnsQueryCount).filterMap query

/-- Rounding of a nonnegative rational as JS Math.round computes it: floor of
the value plus one half. -/
def jsRoundRat (x : ℚ) : ℤ := ⌊x + 1 / 2⌋

/-- Modelled from the spec: jitter == mean(|x - mean(x)|), the mean absolute
deviation of a list of latency samples (spec 4.3 and the glossary entry for
jitter), without any rounding; stated only to be compared with the value the
source computes. -/
def meanAbsoluteDeviation (l : List ℚ) : ℚ :=
  ((l.map (fun x => |x - l.sum / l.length|)).sum) / l.length

/-- DNS probe executor (source: executeDnsProbe, dns.ts lines 13-77):
average latency over the successful queries or null when none succeeded,
jitter = Math.round of the mean absolute deviation of the successful elapsed
times when more than one query succeeded and null otherwise, success when at
least one query succeeded; the returned record has no packetLoss field. -/
def executeDnsProbe (query : Nat → Option ℚ) : ProbeResult :=
  let latencies := dnsLatencies query
  let successCount := latencies.length
  let avgLatency : Option ℚ :=
    if 0 < successCount then some (latencies.sum / successCount) else none
  let jitter : Option ℤ :=
    if 1 < successCount then
      let mean := latencies.sum / successCount
      let absoluteDeviations := latencies.map (fun l => |l - mean|)
      some (jsRoundRat (absoluteDeviations.sum / absoluteDeviations.length))
    else none
  { latency := avgLatency
    packetLoss := none
    jitter := jitter
    success := 0 < successCount }

/-- Measurement record as the scheduler stores it (source: the measurement
literals in ProbeScheduler.probeTarget lines 268-277 and
ProbeScheduler.probeTargetsParallel lines 194-203). -/
structure Measurement where
  latency : Option ℚ
  packetLoss : ℚ
  jitter : Option ℤ
  success : Bool
deriving DecidableEq, Repr

/-- Conversion of an executor result into the stored measurement (source:
probeTarget and probeTargetsParallel).  The source writes
result.packetLoss || 0 and result.jitter || null: a missing packetLoss
becomes 0 (and a zero value stays 0), and a missing or zero jitter becomes
null, since 0 is falsy in JS. -/
def mkMeasurement (r : ProbeResult) : Measurement :=
  { latency := r.latency
    packetLoss := r.packetLoss.getD 0
    jitter :=
      match r.jitter with
      | some j => if j = 0 then none else some j
      | none => none
    success := r.success }

/-- Per-target runtime state of the scheduler (source: ScheduledTarget,
scheduler.ts lines 14-22); the interval is in seconds and lastProbeTime is a
millisecond timestamp. -/
structure ScheduledTarget where
  id : String
  name : String
  host : String
  probeType : ProbeType
  interval : Nat
  lastProbeTime : Int
  isProbing : Bool
deriving DecidableEq, Repr

/-- Lookup of a scheduled target by id (source: this.scheduledTargets.get;
the Map keyed by id is modeled as a list of entries with distinct ids). -/
def findTarget (s : List ScheduledTarget) (targetId : String) : Option ScheduledTarget :=
  s.find? (fun t => t.id = targetId)

/-- Due test of the tick loop (source: checkAndProbeTargets lines 128-142):
a target is collected when it is not already probing and at least
interval * 1000 milliseconds passed since its last probe. -/
def isDue (now : Int) (t : ScheduledTarget) : Bool :=
  !t.isProbing && decide ((t.interval : Int) * 1000 ≤ now - t.lastProbeTime)

/-- Due set computed by one tick (source: the targetsToProbe collection loop
of checkAndProbeTargets). -/
def dueTargets (now : Int) (scheduled : List ScheduledTarget) : List ScheduledTarget :=
  scheduled.filter (isDue now)

/-- Work dispatched by one tick: the batch probed concurrently through
probeTargetsParallel and the targets probed one at a time through
probeTarget. -/
structure DispatchPlan where
  parallelBatch : List ScheduledTarget
  sequential : List ScheduledTarget
deriving DecidableEq, Repr

/-- Dispatch decision of one tick (source: checkAndProbeTargets lines
144-162).  With more than one due target, the ping-type due targets are
probed in parallel when there is more than one of them, and the sequential
pass takes the due targets that are dns-type or ping-type but not members of
pingTargets; with at most one due target everything is sequential. -/
def checkAndProbeTargets (now : Int) (scheduled : List ScheduledTarget) : DispatchPlan :=
  let targetsToProbe := dueTargets now scheduled
  if 1 < targetsToProbe.length then
    let pingTargets := targetsToProbe.filter (fun t => t.probeType = ProbeType.ping)
    let batch := if 1 < pingTargets.length then pingTargets else []
    let sequentialTargets := targetsToProbe.filter (fun t =>
      t.probeType = ProbeType.dns ∨ (t.probeType = ProbeType.ping ∧ t ∉ pingTargets))
    ⟨batch, sequentialTargets⟩
  else
    ⟨[], targetsToProbe⟩

/-- Outcome of a call to probeTarget or forceProbe, seen at the dispatch
level: either a probe of the named target is dispatched to an executor, or
nothing happens because the target is not in the scheduled map. -/
inductive ProbeDispatch where
  | dispatched
  | notFound
deriving DecidableEq, Repr

/-- Dispatch decision of ProbeScheduler.probeTarget (scheduler.ts lines
244-265): look the target up and return if absent; otherwise set isProbing
and lastProbeTime and invoke the executor for its probe type.  There is no
check of isProbing before setting it.  The invalid-probe-type branch of the
source is unreachable here because ProbeType has exactly the two valid
constructors. -/
def probeTargetDispatch (s : List ScheduledTarget) (targetId : String) : ProbeDispatch :=
  match findTarget s targetId with
  | none => ProbeDispatch.notFound
  | some _ => ProbeDispatch.dispatched

/-- Dispatch decision of ProbeScheduler.forceProbe (scheduler.ts lines
313-321): warn and return when the target is not scheduled, otherwise call
probeTarget unconditionally. -/
def forceProbe (s : List ScheduledTarget) (targetId : String) : ProbeDispatch :=
  match findTarget s targetId with
  | none => ProbeDispatch.notFound
  | some _ => probeTargetDispatch s targetId

/-- Abstract outcome of one executor invocation: ok with its result record,
or error when the invocation throws. -/
def ExecOutcome : Type := Except Unit ProbeResult

/-- Effect of ProbeScheduler.probeTarget on one target, given the outcome of
its executor invocation (scheduler.ts lines 244-308): on a normal result the
measurement is stored, on a throw the catch block logs and nothing is
stored; the finally block clears isProbing on both paths, and lastProbeTime
was set to the dispatch time at the start. -/
def probeTargetRun (now : Int) (outcome : ExecOutcome) (t : ScheduledTarget) :
    Option Measurement × ScheduledTarget :=
  (match outcome with
   | Except.ok r => some (mkMeasurement r)
   | Except.error _ => none,
   { t with isProbing := false, lastProbeTime := now })

/-- Sequential pass of the tick (source: the probeTarget loops of
checkAndProbeTargets lines 154-156 and 159-161): each target is probed by
its own probeTarget call, so each entry of the result depends only on the
outcome of the executor invocation for that target. -/
def sequentialRun (now : Int) (outcomes : String → ExecOutcome)
    (targets : List ScheduledTarget) : List (Option Measurement × ScheduledTarget) :=
  targets.map (fun t => probeTargetRun now (outcomes t.id) t)

/-- Measurements stored by ProbeScheduler.probeTargetsParallel (scheduler.ts
lines 168-238): the results of all parallel executor invocations are awaited
together, so when every invocation returns normally each result is stored,
and when any invocation throws the await rejects, the catch block logs, and
the result-processing loop never runs, storing nothing for any target of the
batch. -/
def batchStored (outcomes : String → ExecOutcome) (batch : List ScheduledTarget) :
    List Measurement :=
  if batch.all (fun t => (outcomes t.id).isOk) then
    batch.filterMap (fun t =>
      match outcomes t.id with
      | Except.ok r => some (mkMeasurement r)
      | Except.error _ => none)
  else []

/-- Per-target state after ProbeScheduler.probeTargetsParallel: lastProbeTime
is set to the dispatch time for every batch member at the start, and the
finally block clears isProbing for every batch member on all paths. -/
def batchFinalTargets (now : Int) (batch : List ScheduledTarget) : List ScheduledTarget :=
  batch.map (fun t => { t with isProbing := false, lastProbeTime := now })

/-- Target record held by the external registry (source: the Target rows
read back by getAllTargets in database.ts). -/
structure RegistryTarget where
  id : String
  name : String
  host : String
  probeType : ProbeType
  interval : Nat
  status : ProbeStatus
deriving DecidableEq, Repr

/-- Scheduled map produced by ProbeScheduler.loadTargets (scheduler.ts lines
73-118) from the previous map, the registry contents and the last_probe_at
column of the targets table: every active registry target gets an entry
whose lastProbeTime is the persisted last_probe_at value and whose isProbing
flag is carried over from the existing entry when there is one (falling back
to false), and the removal loop then deletes every entry whose id is not
among the active ids, so the resulting map holds exactly the active
targets. -/
def loadTargets (old : List ScheduledTarget) (registry : List RegistryTarget)
    (dbLastProbeAt : String → Int) : List ScheduledTarget :=
  (registry.filter (fun t => t.status = ProbeStatus.active)).map (fun t =>
    { id := t.id
      name := t.name
      host := t.host
      probeType := t.probeType
      interval := t.interval
      lastProbeTime := dbLastProbeAt t.id
      isProbing := ((findTarget old t.id).map (fun e => e.isProbing)).getD false })

/-- Scheduler instance state (source: the private fields of ProbeScheduler,
scheduler.ts lines 24-28, plus a count of the anonymous target-reload
intervals registered by start, which the source never stores in a field). -/
structure SchedulerState where
  scheduledTargets : List ScheduledTarget
  intervalId : Option Nat
  isRunning : Bool
  reloadIntervals : Nat
deriving DecidableEq, Repr

/-- ProbeScheduler.stop (scheduler.ts lines 61-68): clear the stored tick
interval, null the handle and drop the running flag; nothing else is
touched. -/
def stopScheduler (s : SchedulerState) : SchedulerState :=
  { s with intervalId := none, isRunning := false }

/-- ProbeScheduler.start (scheduler.ts lines 33-56): return at once when
already running; otherwise set the running flag, load targets, store the
tick interval handle, and register one more anonymous target-reload interval
whose handle is never stored. -/
def startScheduler (s : SchedulerState) (registry : List RegistryTarget)
    (dbLastProbeAt : String → Int) (newIntervalId : Nat) : SchedulerState :=
  if s.isRunning then s
  else
    { scheduledTargets := loadTargets s.scheduledTargets registry dbLastProbeAt
      intervalId := some newIntervalId
      isRunning := true
      reloadIntervals := s.reloadIntervals + 1 }

/-- Read-side projection consumed by calculateStats (source: the data
argument of calculateStats in the monitoring dashboard); isOnline = none
marks an interval with no sample, distinct from some false. -/
structure DataPoint where
  timestamp : ℚ
  latency : Option ℚ
  packetLoss : Option ℚ
  jitter : Option ℚ
  isOnline : Option Bool
deriving DecidableEq, Repr

/-- Samples whose isOnline is not null (source: validOnlineData in
calculateStats, line 849). -/
def validOnlineData (data : List DataPoint) : List DataPoint :=
  data.filter (fun d => d.isOnline ≠ none)

/-- Number of online samples (source: validOnlineData.filter(d =>
d.isOnline).length in calculateStats, line 850; the truthiness test holds
exactly for the value true). -/
def onlineCount (data : List DataPoint) : Nat :=
  (validOnlineData data).countP (fun d => d.isOnline = some true)

/-- Uptime percentage computed by calculateStats (line 910 together with the
empty-window early return of line 827): the number of online samples divided
by the length of the whole window, including gap samples, times 100. -/
def uptimeCode (data : List DataPoint) : ℚ :=
  if 0 < data.length then ((onlineCount data : ℚ) / (data.length : ℚ)) * 100 else 0

/-- Modelled from the spec: uptimePct = onlineCount / samplesWithNonNullIsOnline
with gap samples excluded from both numerator and denominator (spec 4.4);
stated here only to be compared with uptimeCode, with the empty-denominator
case sent to 0 as the code sends the empty window to 0. -/
def uptimeSpec (data : List DataPoint) : ℚ :=
  if 0 < (validOnlineData data).length then
    ((onlineCount data : ℚ) / ((validOnlineData data).length : ℚ)) * 100
  else 0

/-- Packet-loss value attributed to a sample by calculateStats (line 870):
the packetLoss field when present, else 100 for an offline sample and 0
otherwise. -/
def lossValue (d : DataPoint) : ℚ :=
  match d.packetLoss with
  | some l => l
  | none => if d.isOnline = some false then 100 else 0

/-- Window ordered most recent first (source: the sort by descending
timestamp of packetLossData, line 873). -/
def sortByRecency (data : List DataPoint) : List DataPoint :=
  data.mergeSort (fun a b => b.timestamp ≤ a.timestamp)

/-- Age of a sample in minutes relative to now, with both in milliseconds
(source: ageMinutes in calculateStats, lines 884 and 896). -/
def ageMinutes (now : ℚ) (d : DataPoint) : ℚ :=
  (now - d.timestamp) / (1000 * 60)

noncomputable section

/-- Exponential decay weight of a sample (source: calculateStats line 887,
weight = Math.exp(-ageMinutes * 0.23)). -/
def decayWeight (now : ℚ) (d : DataPoint) : ℝ :=
  Real.exp (-(ageMinutes now d : ℝ) * 0.23)

/-- Decayed packet-loss aggregate of calculateStats (lines 866-908): the
window is sorted most recent first, each sample contributes its loss value
weighted by exponential decay in its age, and the weighted mean is then
biased upward toward recentAvgLoss * min(0.9, recentAvgLoss / 100) when the
unweighted mean loss of the samples at most 5 minutes old exceeds 20. -/
def packetLossDecayed (now : ℚ) (data : List DataPoint) : ℝ :=
  let packetLossData := sortByRecency data
  if 0 < packetLossData.length then
    let totalWeight := (packetLossData.map (decayWeight now)).sum
    let weightedSum :=
      (packetLossData.map (fun d => (lossValue d : ℝ) * decayWeight now d)).sum
    let base := if 0 < totalWeight then weightedSum / totalWeight else 0
    let veryRecentData := packetLossData.filter (fun d => ageMinutes now d ≤ 5)
    if 0 < veryRecentData.length then
      let recentAvgLoss :=
        ((veryRecentData.map (fun d => (lossValue d : ℝ))).sum) / veryRecentData.length
      if 20 < recentAvgLoss then
        max base (recentAvgLoss * min 0.9 (recentAvgLoss / 100))
      else base
    else base
  else 0

end

theorem countReplies_le (reply : Nat → Bool) (n : Nat) : countReplies reply n ≤ n := by
  have h := List.countP_le_length (p := reply) (l := List.range n)
  simpa [countReplies] using h

theorem countReplies_false (reply : Nat → Bool) (hf : ∀ j, reply j = false) (n : Nat) :
    countReplies reply n = 0 := by
  simp only [countReplies, List.countP_eq_zero]
  intro a _
  simp [hf a]

theorem packetsToSend_le (count retries attempt ts : Nat) :
    packetsToSend count retries attempt ts ≤ count - ts := by
  unfold packetsToSend
  split
  · exact le_rfl
  · exact min_le_right _ _

theorem packetsToSend_pos (count retries attempt ts : Nat) (h : ts < count) :
    0 < packetsToSend count retries attempt ts := by
  unfold packetsToSend
  generalize count / (retries + 1) = q
  split <;> omega

theorem packetsToSend_eq_zero (count retries attempt ts : Nat) (h : ts ≤ count)
    (h0 : packetsToSend count retries attempt ts = 0) : ts = count := by
  by_contra hne
  have := packetsToSend_pos count retries attempt ts (by omega)
  omega

theorem pingAttemptLoop_sent_bounds (count retries : Nat) (reply : Nat → Nat → Bool)
    (lat : Nat → Nat → Nat) (l : List Nat) :
    ∀ sends ts tr tl, ts ≤ count →
      ts ≤ (pingAttemptLoop count retries reply lat l sends ts tr tl).totalSent ∧
      (pingAttemptLoop count retries reply lat l sends ts tr tl).totalSent ≤ count := by
  induction l with
  | nil =>
    intro sends ts tr tl h
    exact ⟨le_rfl, h⟩
  | cons a rest ih =>
    intro sends ts tr tl h
    have hle := packetsToSend_le count retries a ts
    simp only [pingAttemptLoop]
    split_ifs with h0 h1
    · exact ⟨le_rfl, h⟩
    · dsimp only
      exact ⟨Nat.le_add_right _ _, by omega⟩
    · have hrec := ih (packetsToSend count retries a ts :: sends)
        (ts + packetsToSend count retries a ts)
        (tr + countReplies (reply a) (packetsToSend count retries a ts))
        (tl + attemptLatency (reply a) (lat a) (packetsToSend count retries a ts))
        (by omega)
      exact ⟨le_trans (Nat.le_add_right _ _) hrec.1, hrec.2⟩

theorem pingAttemptLoop_received_le_sent (count retries : Nat) (reply : Nat → Nat → Bool)
    (lat : Nat → Nat → Nat) (l : List Nat) :
    ∀ sends ts tr tl, tr ≤ ts →
      (pingAttemptLoop count retries reply lat l sends ts tr tl).totalReceived ≤
      (pingAttemptLoop count retries reply lat l sends ts tr tl).totalSent := by
  induction l with
  | nil =>
    intro sends ts tr tl h
    exact h
  | cons a rest ih =>
    intro sends ts tr tl h
    have hcap := countReplies_le (reply a) (packetsToSend count retries a ts)
    simp only [pingAttemptLoop]
    split_ifs with h0 h1
    · exact h
    · dsimp only
      omega
    · exact ih _ _ _ _ (by omega)

theorem pingAttemptLoop_allfail (count retries : Nat) (reply : Nat → Nat → Bool)
    (lat : Nat → Nat → Nat) (hfail : ∀ a j, reply a j = false) (l : List Nat) :
    ∀ sends ts tr tl, ts ≤ count → (retries ∈ l ∨ ts = count) →
      (pingAttemptLoop count retries reply lat l sends ts tr tl).totalSent = count ∧
      (pingAttemptLoop count retries reply lat l sends ts tr tl).totalReceived = tr := by
  induction l with
  | nil =>
    intro sends ts tr tl h hm
    rcases hm with hm | hm
    · exact absurd hm (List.not_mem_nil retries)
    · exact ⟨hm, rfl⟩
  | cons a rest ih =>
    intro sends ts tr tl h hm
    have hrecv : countReplies (reply a) (packetsToSend count retries a ts) = 0 :=
      countReplies_false _ (hfail a) _
    have hle := packetsToSend_le count retries a ts
    simp only [pingAttemptLoop]
    split_ifs with h0 h1
    · exact ⟨packetsToSend_eq_zero count retries a ts h h0, rfl⟩
    · rw [hrecv] at h1
      exact absurd h1 (by omega)
    · rw [hrecv]
      have hnext : retries ∈ rest ∨ ts + packetsToSend count retries a ts = count := by
        rcases hm with hm | hm
        · rcases List.mem_cons.mp hm with hm | hm
          · right
            rw [← hm]
            have hpts : packetsToSend count retries retries ts = count - ts := by
              simp [packetsToSend]
            omega
          · exact Or.inl hm
        · exfalso
          have : packetsToSend count retries a ts = 0 := by omega
          exact h0 this
      have := ih (packetsToSend count retries a ts :: sends)
        (ts + packetsToSend count retries a ts) (tr + 0)
        (tl + attemptLatency (reply a) (lat a) (packetsToSend count retries a ts))
        (by omega) hnext
      simpa using this

theorem pingRun_allfail (count retries : Nat) (reply : Nat → Nat → Bool)
    (lat : Nat → Nat → Nat) (hfail : ∀ a j, reply a j = false) :
    (pingRun count retries reply lat).totalSent = count ∧
    (pingRun count retries reply lat).totalReceived = 0 := by
  have hm : retries ∈ List.range (retries + 1) := List.self_mem_range_succ retries
  exact pingAttemptLoop_allfail count retries reply lat hfail _ [] 0 0 0 (Nat.zero_le _)
    (Or.inl hm)

theorem pingRun_sent_le (count retries : Nat) (reply : Nat → Nat → Bool)
    (lat : Nat → Nat → Nat) :
    (pingRun count retries reply lat).totalSent ≤ count :=
  (pingAttemptLoop_sent_bounds count retries reply lat _ [] 0 0 0 (Nat.zero_le _)).2

theorem pingRun_received_le_sent (count retries : Nat) (reply : Nat → Nat → Bool)
    (lat : Nat → Nat → Nat) :
    (pingRun count retries reply lat).totalReceived ≤
    (pingRun count retries reply lat).totalSent :=
  pingAttemptLoop_received_le_sent count retries reply lat _ [] 0 0 0 le_rfl

theorem pingRun_sent_pos (count retries : Nat) (reply : Nat → Nat → Bool)
    (lat : Nat → Nat → Nat) (hc : 0 < count) :
    0 < (pingRun count retries reply lat).totalSent := by
  unfold pingRun
  rw [List.range_succ_eq_map]
  have hpos := packetsToSend_pos count retries 0 0 hc
  simp only [pingAttemptLoop]
  split_ifs with h0 h1
  · exact absurd h0 (by omega)
  · simpa using hpos
  · have := pingAttemptLoop_sent_bounds count retries reply lat
      ((List.range retries).map Nat.succ) [packetsToSend count retries 0 0]
      (0 + packetsToSend count retries 0 0) (0 + countReplies (reply 0) (packetsToSend count retries 0 0))
      (0 + attemptLatency (reply 0) (lat 0) (packetsToSend count retries 0 0))
      (by have := packetsToSend_le count retries 0 0; omega)
    omega

/-- C2 counterexample: with count = 20 and retries = 3 and every packet of
the first attempt answered, the echo executor sends 5 packets in total, not
20: the retry loop breaks unconditionally after any attempt that received a
reply, and no earlyStopOnSuccess option exists to disable that. -/
theorem C2_counterexample :
    (pingRun 20 3 (fun _ _ => true) (fun _ _ => 7)).totalSent = 5 ∧
    (pingRun 20 3 (fun _ _ => true) (fun _ _ => 7)).totalSent ≠ 20 := by
  decide

/-- C2 amended: the echo executor distributes count packets over retries + 1
attempts but stops early after the first attempt with at least one reply
(there is no earlyStopOnSuccess flag; the early stop is unconditional), so
the total equals count exactly when no attempt receives a reply; in that
all-fail case the per-attempt allocation for count = 20, retries = 3 is
[5, 5, 5, 5], and for every reply pattern the total sent never exceeds
count. -/
theorem C2_echo_total_packets (count retries : Nat) (reply : Nat → Nat → Bool)
    (lat : Nat → Nat → Nat) (_hc : 1 ≤ count) (hfail : ∀ a j, reply a j = false) :
    (pingRun count retries reply lat).totalSent = count ∧
    (pingRun count retries reply lat).totalReceived = 0 ∧
    (pingRun 20 3 (fun _ _ => false) (fun _ _ => 0)).sends = [5, 5, 5, 5] ∧
    ∀ (reply2 : Nat → Nat → Bool) (lat2 : Nat → Nat → Nat),
      (pingRun count retries reply2 lat2).totalSent ≤ count := by
  have hall := pingRun_allfail count retries reply lat hfail
  refine ⟨hall.1, hall.2, by decide, fun reply2 lat2 => pingRun_sent_le count retries reply2 lat2⟩

/-- C2 witness: the amended theorem applied at count = 20, retries = 3 with
no packet ever answered. -/
theorem C2_echo_total_packets_witness :
    (1 ≤ 20) ∧ (pingRun 20 3 (fun _ _ => false) (fun _ _ => 0)).totalSent = 20 :=
  ⟨by decide,
    (C2_echo_total_packets 20 3 (fun _ _ => false) (fun _ _ => 0) (by decide)
      (fun _ _ => rfl)).1⟩

theorem jsRound_loss_le (s r : Nat) (h1 : 1 ≤ s) : jsRound (100 * (s - r)) s ≤ 100 := by
  unfold jsRound
  have hk : 0 < 2 * s := by omega
  have hlt := (Nat.div_lt_iff_lt_mul hk).mpr
    (show 2 * (100 * (s - r)) + s < 101 * (2 * s) by omega)
  omega

theorem jsRound_loss_eq_100 (s : Nat) (h1 : 1 ≤ s) : jsRound (100 * s) s = 100 := by
  unfold jsRound
  have hk : 0 < 2 * s := by omega
  have hge := (Nat.le_div_iff_mul_le hk).mpr
    (show 100 * (2 * s) ≤ 2 * (100 * s) + s by omega)
  have hlt := (Nat.div_lt_iff_lt_mul hk).mpr
    (show 2 * (100 * s) + s < 101 * (2 * s) by omega)
  omega

theorem jsRound_loss_lt_100 (s r : Nat) (h1 : 1 ≤ r) (h2 : r ≤ s) (h3 : s ≤ 20) :
    jsRound (100 * (s - r)) s < 100 := by
  unfold jsRound
  have hk : 0 < 2 * s := by omega
  exact (Nat.div_lt_iff_lt_mul hk).mpr (by omega)

theorem echoPacketLoss_eq_100_iff (run : EchoRun) (h1 : 1 ≤ run.totalSent)
    (h2 : run.totalSent ≤ 20) (h3 : run.totalReceived ≤ run.totalSent) :
    (echoPacketLoss run = 100 ↔ run.totalReceived = 0) ∧ echoPacketLoss run ≤ 100 := by
  unfold echoPacketLoss
  rw [if_pos (by omega)]
  constructor
  · constructor
    · intro h
      by_contra hr
      have := jsRound_loss_lt_100 run.totalSent run.totalReceived (by omega) h3 h2
      omega
    · intro h
      rw [h, Nat.sub_zero]
      exact jsRound_loss_eq_100 run.totalSent h1
  · exact jsRound_loss_le run.totalSent run.totalReceived h1

/-- C3 counterexample: a DNS probe whose five queries all fail yields a
stored measurement with success = false and packetLossPct = 0, because the
DNS executor returns no packetLoss field and the scheduler coalesces the
missing value to 0; the claimed equivalence packetLossPct = 100 iff
success = false is therefore false. -/
theorem C3_counterexample :
    (mkMeasurement (executeDnsProbe (fun _ => none))).success = false ∧
    (mkMeasurement (executeDnsProbe (fun _ => none))).packetLoss = 0 ∧
    ¬((mkMeasurement (executeDnsProbe (fun _ => none))).packetLoss = 100 ↔
      (mkMeasurement (executeDnsProbe (fun _ => none))).success = false) := by
  refine ⟨rfl, rfl, fun h => ?_⟩
  have := h.mpr rfl
  simp [mkMeasurement, executeDnsProbe, dnsLatencies] at this

/-- C3 amended: for a measurement stored by the scheduler from an echo probe
run through the per-packet retry path with the scheduler defaults
count = 20, retries = 3, packetLossPct lies in [0, 100] and equals 100
exactly when success is false; for a measurement stored from a DNS probe,
packetLossPct is always 0 (the executor reports none and the scheduler
coalesces it to 0), so a failed DNS probe stores loss 0 together with
success = false. -/
theorem C3_measurement_loss (reply : Nat → Nat → Bool) (lat : Nat → Nat → Nat)
    (query : Nat → Option ℚ) :
    (0 ≤ (mkMeasurement (executeSystemPingProbe 20 3 reply lat)).packetLoss ∧
      (mkMeasurement (executeSystemPingProbe 20 3 reply lat)).packetLoss ≤ 100 ∧
      ((mkMeasurement (executeSystemPingProbe 20 3 reply lat)).packetLoss = 100 ↔
        (mkMeasurement (executeSystemPingProbe 20 3 reply lat)).success = false)) ∧
    ((mkMeasurement (executeDnsProbe query)).packetLoss = 0 ∧
      0 ≤ (mkMeasurement (executeDnsProbe query)).packetLoss ∧
      (mkMeasurement (executeDnsProbe query)).packetLoss ≤ 100) := by
  constructor
  · have hpos := pingRun_sent_pos 20 3 reply lat (by omega)
    have hle := pingRun_sent_le 20 3 reply lat
    have hrs := pingRun_received_le_sent 20 3 reply lat
    have hiff := echoPacketLoss_eq_100_iff (pingRun 20 3 reply lat) (by omega) hle hrs
    simp only [mkMeasurement, executeSystemPingProbe, Option.getD_some]
    refine ⟨by positivity, ?_, ?_⟩
    · exact_mod_cast hiff.2
    · rw [show ((100 : ℚ) = ((100 : Nat) : ℚ)) by norm_num, Nat.cast_inj]
      rw [hiff.1]
      simp [Nat.pos_iff_ne_zero]
  · exact ⟨rfl, le_refl 0, by
      rw [show (mkMeasurement (executeDnsProbe query)).packetLoss = 0 from rfl]
      norm_num⟩

/-- C5: evaluation of the tick dispatch at the failing input, one due
ping-type target together with one due dns-type target.  The due set
contains both, yet the dispatch probes only the dns target: the parallel
branch requires more than one ping target, and the sequential filter
excludes every ping target that is a member of pingTargets, which is all of
them, so the lone due ping target is dropped from the tick, contradicting
the comment of the source that remaining ping targets are probed
sequentially. -/
theorem C5_due_ping_target_dropped :
    (⟨"a", "a", "1.1.1.1", ProbeType.ping, 60, 0, false⟩ : ScheduledTarget) ∈
      dueTargets 60000 [⟨"a", "a", "1.1.1.1", ProbeType.ping, 60, 0, false⟩,
        ⟨"b", "b", "example.com", ProbeType.dns, 60, 0, false⟩] ∧
    checkAndProbeTargets 60000 [⟨"a", "a", "1.1.1.1", ProbeType.ping, 60, 0, false⟩,
        ⟨"b", "b", "example.com", ProbeType.dns, 60, 0, false⟩] =
      ⟨[], [⟨"b", "b", "example.com", ProbeType.dns, 60, 0, false⟩]⟩ := by
  decide

/-- C10: stop clears exactly the tick interval handle and the running flag;
the scheduled map and the count of registered target-reload intervals
survive stop (the reload interval handle is never stored, so stop cannot
clear it), and a start after a stop registers one more reload interval. -/
theorem C10_stop_frame (s : SchedulerState) (registry : List RegistryTarget)
    (dbLastProbeAt : String → Int) (newIntervalId : Nat) :
    (stopScheduler s).intervalId = none ∧
    (stopScheduler s).isRunning = false ∧
    (stopScheduler s).scheduledTargets = s.scheduledTargets ∧
    (stopScheduler s).reloadIntervals = s.reloadIntervals ∧
    (startScheduler (stopScheduler s) registry dbLastProbeAt newIntervalId).reloadIntervals =
      s.reloadIntervals + 1 := by
  refine ⟨rfl, rfl, rfl, rfl, ?_⟩
  simp [startScheduler, stopScheduler]

/-- C1 counterexample: forceProbe on a target whose isProbing flag is true
is not a no-op: it dispatches a probe, because neither forceProbe nor
probeTarget checks isProbing before starting. -/
theorem C1_counterexample :
    (⟨"a", "a", "1.1.1.1", ProbeType.ping, 60, 0, true⟩ : ScheduledTarget).isProbing = true ∧
    forceProbe [⟨"a", "a", "1.1.1.1", ProbeType.ping, 60, 0, true⟩] "a" =
      ProbeDispatch.dispatched := by
  decide

/-- C1 amended: overlap protection exists only in the tick loop: every
target of the due set has isProbing = false, while forceProbe bypasses both
the interval check and the isProbing guard and dispatches a probe whenever
the target is scheduled, even while a probe of the same target is in
flight. -/
theorem C1_overlap_guard (now : Int) (s : List ScheduledTarget) :
    (∀ t ∈ dueTargets now s, t.isProbing = false) ∧
    (∀ (targetId : String) (t : ScheduledTarget), findTarget s targetId = some t →
      forceProbe s targetId = ProbeDispatch.dispatched) := by
  constructor
  · intro t ht
    have hmem := List.mem_filter.mp ht
    have hd := hmem.2
    simp only [isDue, Bool.and_eq_true, Bool.not_eq_true'] at hd
    exact hd.1
  · intro targetId t hf
    simp [forceProbe, probeTargetDispatch, hf]

/-- C1 witness: the amended theorem applied to a singleton scheduled map. -/
theorem C1_overlap_guard_witness :
    forceProbe [⟨"a", "a", "1.1.1.1", ProbeType.ping, 60, 0, false⟩] "a" =
      ProbeDispatch.dispatched :=
  (C1_overlap_guard 0 [⟨"a", "a", "1.1.1.1", ProbeType.ping, 60, 0, false⟩]).2 "a"
    ⟨"a", "a", "1.1.1.1", ProbeType.ping, 60, 0, false⟩ (by decide)

/-- C4 counterexample: a window holding one online sample and one gap sample
gets uptime 50 from the code, while the gap-excluding formula of the claim
gives 100: the gap sample is excluded from the numerator but counted in the
denominator. -/
theorem C4_counterexample :
    uptimeCode [⟨0, none, none, none, some true⟩, ⟨1, none, none, none, none⟩] = 50 ∧
    uptimeSpec [⟨0, none, none, none, some true⟩, ⟨1, none, none, none, none⟩] = 100 ∧
    (50 : ℚ) ≠ 100 := by
  have hoc : onlineCount [⟨0, none, none, none, some true⟩,
      ⟨1, none, none, none, none⟩] = 1 := by decide
  have hvl : (validOnlineData [⟨0, none, none, none, some true⟩,
      ⟨1, none, none, none, none⟩]).length = 1 := by decide
  refine ⟨?_, ?_, by norm_num⟩
  · unfold uptimeCode
    rw [hoc]
    norm_num
  · unfold uptimeSpec
    rw [hoc, hvl]
    norm_num

/-- C4 amended: calculateStats excludes gap samples from the numerator but
not from the denominator, dividing the online count by the length of the
whole window; the code value therefore never exceeds the gap-excluding ratio
of the claim, agrees with it exactly when the window has no gaps or no
online samples, and the gap-excluding ratio itself never exceeds 100. -/
theorem C4_uptime (data : List DataPoint) :
    uptimeCode data ≤ uptimeSpec data ∧
    ((validOnlineData data).length = data.length → uptimeCode data = uptimeSpec data) ∧
    (onlineCount data = 0 → uptimeCode data = uptimeSpec data) ∧
    uptimeSpec data ≤ 100 := by
  have hvl : (validOnlineData data).length ≤ data.length :=
    List.length_filter_le _ _
  have hoc : onlineCount data ≤ (validOnlineData data).length :=
    List.countP_le_length _
  by_cases hv : (validOnlineData data).length = 0
  · have hoc0 : onlineCount data = 0 := by omega
    have hspec : uptimeSpec data = 0 := by simp [uptimeSpec, hv]
    have hcode : uptimeCode data = 0 := by
      unfold uptimeCode
      split
      · rw [hoc0]; norm_num
      · rfl
    rw [hspec, hcode]
    refine ⟨le_rfl, fun _ => rfl, fun _ => rfl, by norm_num⟩
  · have hvpos : 0 < (validOnlineData data).length := by omega
    have hdpos : 0 < data.length := by omega
    have hvQ : (0 : ℚ) < ((validOnlineData data).length : ℚ) := by exact_mod_cast hvpos
    have hdQ : (0 : ℚ) < (data.length : ℚ) := by exact_mod_cast hdpos
    have hcode : uptimeCode data =
        ((onlineCount data : ℚ) / (data.length : ℚ)) * 100 := by
      unfold uptimeCode
      rw [if_pos hdpos]
    have hspec : uptimeSpec data =
        ((onlineCount data : ℚ) / ((validOnlineData data).length : ℚ)) * 100 := by
      unfold uptimeSpec
      rw [if_pos hvpos]
    refine ⟨?_, ?_, ?_, ?_⟩
    · rw [hcode, hspec]
      gcongr
    · intro heq
      rw [hcode, hspec, heq]
    · intro h0
      rw [hcode, hspec, h0]
      norm_num
    · rw [hspec]
      have hratio : (onlineCount data : ℚ) / ((validOnlineData data).length : ℚ) ≤ 1 :=
        (div_le_one hvQ).mpr (by exact_mod_cast hoc)
      nlinarith [hratio]

/-- C4 witness: the amended theorem applied to a gap-free one-sample window,
where the code value and the gap-excluding formula agree. -/
theorem C4_uptime_witness :
    uptimeCode [⟨0, none, none, none, some true⟩] =
      uptimeSpec [⟨0, none, none, none, some true⟩] :=
  (C4_uptime [⟨0, none, none, none, some true⟩]).2.1 (by decide)

/-- C9 counterexample: reloading a target that is mid-probe keeps its
isProbing flag but replaces its in-memory lastProbeTime (5000, set when the
in-flight probe started) with the persisted last_probe_at column value
(1000, written when the previous probe completed), so lastProbeTimeMs is not
preserved across the reload. -/
theorem C9_counterexample :
    loadTargets [⟨"a", "a", "h", ProbeType.ping, 60, 5000, true⟩]
        [⟨"a", "a", "h", ProbeType.ping, 60, ProbeStatus.active⟩] (fun _ => 1000) =
      [⟨"a", "a", "h", ProbeType.ping, 60, 1000, true⟩] ∧
    (⟨"a", "a", "h", ProbeType.ping, 60, 5000, true⟩ : ScheduledTarget).lastProbeTime =
      5000 ∧
    (1000 : Int) ≠ 5000 := by
  refine ⟨?_, rfl, by decide⟩
  decide

/-- C9 amended: loadTargets removes exactly the entries whose target is
missing or inactive in the registry; every surviving entry keeps the
isProbing flag of the existing entry with its id (so a mid-probe target
stays marked as probing), while its lastProbeTime is reloaded from the
persisted last_probe_at value rather than preserved from memory. -/
theorem C9_reload (old : List ScheduledTarget) (registry : List RegistryTarget)
    (dbLastProbeAt : String → Int) :
    (∀ e ∈ loadTargets old registry dbLastProbeAt,
      ∃ t ∈ registry, t.status = ProbeStatus.active ∧ t.id = e.id) ∧
    (∀ t ∈ registry, t.status = ProbeStatus.active →
      ∃ e ∈ loadTargets old registry dbLastProbeAt,
        e.id = t.id ∧ e.lastProbeTime = dbLastProbeAt t.id ∧
        e.isProbing = ((findTarget old t.id).map (fun o => o.isProbing)).getD false) ∧
    (∀ t ∈ registry, t.status = ProbeStatus.active →
      ∀ o, findTarget old t.id = some o → o.isProbing = true →
        ∃ e ∈ loadTargets old registry dbLastProbeAt,
          e.id = t.id ∧ e.isProbing = true) := by
  refine ⟨?_, ?_, ?_⟩
  · intro e he
    rcases List.mem_map.mp he with ⟨t, ht, hmk⟩
    rcases List.mem_filter.mp ht with ⟨htr, hst⟩
    refine ⟨t, htr, by simpa using hst, ?_⟩
    rw [← hmk]
  · intro t ht hact
    refine ⟨_, List.mem_map_of_mem _ (List.mem_filter.mpr ⟨ht, by simpa using hact⟩),
      rfl, rfl, rfl⟩
  · intro t ht hact o ho hprob
    refine ⟨_, List.mem_map_of_mem _ (List.mem_filter.mpr ⟨ht, by simpa using hact⟩),
      rfl, ?_⟩
    simp [ho, hprob]

/-- C9 witness: the amended theorem applied to a one-target registry whose
scheduled entry is mid-probe. -/
theorem C9_reload_witness :
    ∃ e ∈ loadTargets [⟨"a", "a", "h", ProbeType.ping, 60, 5000, true⟩]
        [⟨"a", "a", "h", ProbeType.ping, 60, ProbeStatus.active⟩] (fun _ => 1000),
      e.id = "a" ∧ e.isProbing = true :=
  (C9_reload [⟨"a", "a", "h", ProbeType.ping, 60, 5000, true⟩]
      [⟨"a", "a", "h", ProbeType.ping, 60, ProbeStatus.active⟩] (fun _ => 1000)).2.2
    ⟨"a", "a", "h", ProbeType.ping, 60, ProbeStatus.active⟩ (by decide) rfl
    ⟨"a", "a", "h", ProbeType.ping, 60, 5000, true⟩ (by decide) rfl

/-- C8 counterexample: in a concurrent batch of two targets whose first
executor invocation throws, the second target receives no stored measurement
even though its own invocation returned normally: the rejection is caught at
the batch boundary, not at the per-target boundary. -/
theorem C8_counterexample :
    (fun id => if id = "t1" then (Except.error () : ExecOutcome)
        else Except.ok ⟨some 5, some 0, none, true⟩) "t2" =
      Except.ok ⟨some 5, some 0, none, true⟩ ∧
    batchStored
      (fun id => if id = "t1" then (Except.error () : ExecOutcome)
        else Except.ok ⟨some 5, some 0, none, true⟩)
      [⟨"t1", "t1", "h1", ProbeType.ping, 60, 0, true⟩,
        ⟨"t2", "t2", "h2", ProbeType.ping, 60, 0, true⟩] = [] := by
  constructor
  · rfl
  · rfl

/-- C8 amended: a sequentially dispatched target has its executor failure
caught at the per-target boundary: a throw stores nothing for it and a
normal result stores its measurement, isProbing is cleared on both paths,
and the sequential pass of a tick handles each target independently, so one
failure never affects the entries produced for the other sequential targets;
for the concurrent batch the catch sits at the batch boundary instead: one
throw discards the stored measurements of the whole batch, every member
still gets isProbing cleared, and when every invocation returns normally one
measurement is stored per member. -/
theorem C8_error_boundaries (now : Int) (outcomes : String → ExecOutcome)
    (t : ScheduledTarget) (batch : List ScheduledTarget)
    (front : List ScheduledTarget) (back : List ScheduledTarget) :
    ((probeTargetRun now (Except.error ()) t).1 = none ∧
      (probeTargetRun now (Except.error ()) t).2.isProbing = false) ∧
    (∀ r : ProbeResult, (probeTargetRun now (Except.ok r) t).1 = some (mkMeasurement r) ∧
      (probeTargetRun now (Except.ok r) t).2.isProbing = false) ∧
    (sequentialRun now outcomes (front ++ t :: back) =
      sequentialRun now outcomes front ++
        probeTargetRun now (outcomes t.id) t :: sequentialRun now outcomes back) ∧
    (∀ tb ∈ batchFinalTargets now batch, tb.isProbing = false) ∧
    ((∀ tb ∈ batch, (outcomes tb.id).isOk = true) →
      (batchStored outcomes batch).length = batch.length) ∧
    (∀ tb ∈ batch, (outcomes tb.id).isOk = false → batchStored outcomes batch = []) := by
  refine ⟨⟨rfl, rfl⟩, fun r => ⟨rfl, rfl⟩, ?_, ?_, ?_, ?_⟩
  · simp [sequentialRun]
  · intro tb htb
    rcases List.mem_map.mp htb with ⟨t0, _, hmk⟩
    rw [← hmk]
  · intro hall
    unfold batchStored
    rw [if_pos (List.all_eq_true.mpr (fun t0 ht0 => hall t0 ht0))]
    induction batch with
    | nil => rfl
    | cons t0 rest ih =>
      have hok := hall t0 (List.mem_cons_self t0 rest)
      rcases hh : outcomes t0.id with e | r
      · rw [hh] at hok
        simp [Except.isOk, Except.toBool] at hok
      · simp only [List.filterMap_cons, hh, List.length_cons]
        rw [ih (fun t1 ht1 => hall t1 (List.mem_cons_of_mem t0 ht1))]
  · intro tb htb hbad
    unfold batchStored
    rw [if_neg]
    intro hcontra
    have := List.all_eq_true.mp hcontra tb htb
    rw [hbad] at this
    exact Bool.false_ne_true this

/-- C8 witness: the amended theorem applied to an all-ok batch of one
target. -/
theorem C8_error_boundaries_witness :
    (batchStored (fun _ => Except.ok ⟨some 5, some 0, none, true⟩)
      [⟨"t1", "t1", "h1", ProbeType.ping, 60, 0, true⟩]).length = 1 :=
  (C8_error_boundaries 0 (fun _ => Except.ok ⟨some 5, some 0, none, true⟩)
      ⟨"t1", "t1", "h1", ProbeType.ping, 60, 0, true⟩
      [⟨"t1", "t1", "h1", ProbeType.ping, 60, 0, true⟩] [] []).2.2.2.2.1
    (fun _ _ => rfl)

theorem dnsScenario_latencies :
    dnsLatencies (fun i => if i = 0 then some 10 else if i = 1 then some 12
      else if i = 2 then some 14 else none) = [10, 12, 14] := rfl

theorem dnsScenario_eval :
    (executeDnsProbe (fun i => if i = 0 then some 10 else if i = 1 then some 12
      else if i = 2 then some 14 else none)).latency = some 12 ∧
    (executeDnsProbe (fun i => if i = 0 then some 10 else if i = 1 then some 12
      else if i = 2 then some 14 else none)).jitter = some 1 := by
  have h1 : |(10 : ℚ) - 12| = 2 := by
    rw [show (10 : ℚ) - 12 = -2 by norm_num, abs_neg,
      abs_of_nonneg (by norm_num : (0 : ℚ) ≤ 2)]
  have h3 : |(14 : ℚ) - 12| = 2 := by
    rw [show (14 : ℚ) - 12 = 2 by norm_num, abs_of_nonneg (by norm_num : (0 : ℚ) ≤ 2)]
  have hmean : (([10, 12, 14] : List ℚ).sum / (([10, 12, 14] : List ℚ).length : ℚ)) = 12 := by
    norm_num
  have hjr : jsRoundRat (4 / 3) = 1 := by
    rw [jsRoundRat, show (4 : ℚ) / 3 + 1 / 2 = 11 / 6 by norm_num]
    rw [Int.floor_eq_iff]
    norm_num
  simp only [executeDnsProbe, dnsScenario_latencies]
  norm_num [hmean, h1, h3, hjr]

/-- C6 counterexample: for the DNS scenario with successful elapsed times
[10, 12, 14] the code stores jitter 1, because executeDnsProbe applies
Math.round to the mean absolute deviation, while the claimed unrounded mean
absolute deviation is 4/3 (1.33), so the claim fails at this input. -/
theorem C6_counterexample :
    (executeDnsProbe (fun i => if i = 0 then some 10 else if i = 1 then some 12
      else if i = 2 then some 14 else none)).jitter = some 1 ∧
    meanAbsoluteDeviation [10, 12, 14] = 4 / 3 ∧
    ((1 : ℚ) ≠ 4 / 3) := by
  refine ⟨dnsScenario_eval.2, ?_, by norm_num⟩
  have h1 : |(10 : ℚ) - 12| = 2 := by
    rw [show (10 : ℚ) - 12 = -2 by norm_num, abs_neg,
      abs_of_nonneg (by norm_num : (0 : ℚ) ≤ 2)]
  have h3 : |(14 : ℚ) - 12| = 2 := by
    rw [show (14 : ℚ) - 12 = 2 by norm_num, abs_of_nonneg (by norm_num : (0 : ℚ) ≤ 2)]
  unfold meanAbsoluteDeviation
  norm_num [h1, h3]

/-- C6 amended: for the DNS executor, jitter is null exactly when fewer than
2 queries succeeded, and otherwise equals the nonnegative Math.round of the
mean absolute deviation of the successful elapsed times (so the scenario
[10, 12, 14] yields latency 12 and jitter 1, not 1.33); the echo executor
computes no jitter at all, so its results always carry jitter null. -/
theorem C6_jitter (query : Nat → Option ℚ) (count retries : Nat)
    (reply : Nat → Nat → Bool) (lat : Nat → Nat → Nat) :
    ((dnsLatencies query).length < 2 → (executeDnsProbe query).jitter = none) ∧
    (2 ≤ (dnsLatencies query).length →
      ∃ j : ℤ, (executeDnsProbe query).jitter = some j ∧ 0 ≤ j ∧
        j = jsRoundRat (meanAbsoluteDeviation (dnsLatencies query))) ∧
    (executeSystemPingProbe count retries reply lat).jitter = none ∧
    (executeDnsProbe (fun i => if i = 0 then some 10 else if i = 1 then some 12
      else if i = 2 then some 14 else none)).latency = some 12 ∧
    (executeDnsProbe (fun i => if i = 0 then some 10 else if i = 1 then some 12
      else if i = 2 then some 14 else none)).jitter = some 1 := by
  refine ⟨?_, ?_, rfl, dnsScenario_eval.1, dnsScenario_eval.2⟩
  · intro hlt
    simp only [executeDnsProbe]
    rw [if_neg (by omega)]
  · intro hge
    have hlen : 0 < (dnsLatencies query).length := by omega
    have hlenQ : (0 : ℚ) < ((dnsLatencies query).length : ℚ) := by exact_mod_cast hlen
    simp only [executeDnsProbe]
    rw [if_pos (by omega)]
    refine ⟨_, rfl, ?_, ?_⟩
    · have hdev : (0 : ℚ) ≤
          ((dnsLatencies query).map (fun l =>
            |l - (dnsLatencies query).sum / ((dnsLatencies query).length : ℚ)|)).sum :=
        List.sum_nonneg (by
          intro x hx
          rcases List.mem_map.mp hx with ⟨y, _, hy⟩
          rw [← hy]
          exact abs_nonneg _)
      have hx : (0 : ℚ) ≤
          ((dnsLatencies query).map (fun l =>
            |l - (dnsLatencies query).sum / ((dnsLatencies query).length : ℚ)|)).sum /
            (((dnsLatencies query).map (fun l =>
              |l - (dnsLatencies query).sum / ((dnsLatencies query).length : ℚ)|)).length : ℚ) := by
        rw [List.length_map]
        positivity
      rw [jsRoundRat]
      exact Int.le_floor.mpr (by push_cast; linarith)
    · rw [jsRoundRat, jsRoundRat]
      unfold meanAbsoluteDeviation
      rw [List.length_map]

/-- C6 witness: the amended theorem applied to the three-success scenario
query pattern. -/
theorem C6_jitter_witness :
    ∃ j : ℤ, (executeDnsProbe (fun i => if i = 0 then some 10 else if i = 1 then some 12
      else if i = 2 then some 14 else none)).jitter = some j ∧ 0 ≤ j ∧
      j = jsRoundRat (meanAbsoluteDeviation (dnsLatencies
        (fun i => if i = 0 then some 10 else if i = 1 then some 12
          else if i = 2 then some 14 else none))) :=
  (C6_jitter (fun i => if i = 0 then some 10 else if i = 1 then some 12
      else if i = 2 then some 14 else none) 0 0 (fun _ _ => false) (fun _ _ => 0)).2.1
    (by rw [dnsScenario_latencies]; norm_num)

theorem uniform_weightedSum (F : List DataPoint) (w : DataPoint → ℝ) (c : ℚ)
    (hall : ∀ d ∈ F, lossValue d = c) :
    (F.map (fun d => (lossValue d : ℝ) * w d)).sum = (c : ℝ) * (F.map w).sum := by
  rw [List.map_congr_left (fun d hd => by
    show (lossValue d : ℝ) * w d = (c : ℝ) * w d
    rw [hall d hd] :
    ∀ d ∈ F, (fun d => (lossValue d : ℝ) * w d) d = (fun d => (c : ℝ) * w d) d)]
  exact List.sum_map_mul_left F w (c : ℝ)

theorem uniform_recentAvg (F : List DataPoint) (c : ℚ)
    (hall : ∀ d ∈ F, lossValue d = c) (hlen : 0 < F.length) :
    ((F.map (fun d => (lossValue d : ℝ))).sum) / (F.length : ℝ) = (c : ℝ) := by
  have hmap : F.map (fun d => (lossValue d : ℝ)) = F.map (fun _ => (c : ℝ)) :=
    List.map_congr_left (fun d hd => by rw [hall d hd])
  rw [hmap, List.map_const', List.sum_replicate, nsmul_eq_mul]
  have hne : (F.length : ℝ) ≠ 0 := by
    exact_mod_cast Nat.pos_iff_ne_zero.mp hlen
  rw [mul_comm, mul_div_assoc, div_self hne, mul_one]

/-- C7: the decayed packet-loss aggregate of a window whose samples all
carry the same loss value c equals c exactly: the exponential weights are
positive, so the weighted mean of the constant is the constant, and the
recency-bias step can only raise the value toward
recentAvgLoss * min(0.9, recentAvgLoss / 100) <= recentAvgLoss = c, so it
leaves c unchanged. -/
theorem C7_uniform_decayed_loss (now : ℚ) (data : List DataPoint) (c : ℚ)
    (hne : data ≠ []) (hc : 0 ≤ c) (hall : ∀ d ∈ data, lossValue d = c) :
    packetLossDecayed now data = (c : ℝ) := by
  have hperm : (sortByRecency data).Perm data := List.mergeSort_perm data _
  have hallS : ∀ d ∈ sortByRecency data, lossValue d = c := fun d hd =>
    hall d (hperm.mem_iff.mp hd)
  have hlen : 0 < (sortByRecency data).length := by
    rw [hperm.length_eq]
    exact List.length_pos.mpr hne
  have hneS : sortByRecency data ≠ [] := by
    intro h0
    rw [h0] at hlen
    exact absurd hlen (by simp)
  have hW : 0 < ((sortByRecency data).map (decayWeight now)).sum := by
    refine List.sum_pos _ ?_ (by simpa using hneS)
    intro x hx
    rcases List.mem_map.mp hx with ⟨d, _, hd⟩
    rw [← hd]
    exact Real.exp_pos _
  have hWS := uniform_weightedSum (sortByRecency data) (decayWeight now) c hallS
  simp only [packetLossDecayed]
  rw [if_pos hlen, hWS, if_pos hW, mul_div_assoc, div_self hW.ne', mul_one]
  by_cases hF : 0 <
      ((sortByRecency data).filter (fun d => ageMinutes now d ≤ 5)).length
  · rw [if_pos hF]
    have hallF : ∀ d ∈ (sortByRecency data).filter (fun d => ageMinutes now d ≤ 5),
        lossValue d = c := fun d hd => hallS d (List.mem_of_mem_filter hd)
    rw [uniform_recentAvg _ c hallF hF]
    split_ifs with h20
    · have hcR : (0 : ℝ) ≤ (c : ℝ) := by exact_mod_cast hc
      have hmin : min (0.9 : ℝ) ((c : ℝ) / 100) ≤ 1 :=
        le_trans (min_le_left _ _) (by norm_num)
      exact max_eq_left (mul_le_of_le_one_right hcR hmin)
    · rfl
  · rw [if_neg hF]

/-- C7 witness: the theorem applied to a one-sample window with loss 30. -/
theorem C7_uniform_decayed_loss_witness :
    packetLossDecayed 0 [⟨0, none, some 30, none, some true⟩] = ((30 : ℚ) : ℝ) :=
  C7_uniform_decayed_loss 0 [⟨0, none, some 30, none, some true⟩] 30
    (by simp) (by norm_num)
    (fun d hd => by
      rw [List.mem_singleton.mp hd]
      rfl)

end ClearPing
